import Mathlib

/-!
Verification development for the Gmail integration handler
(`mindsdb/integrations/handlers/gmail_handler/gmail_handler.py`).

The handler is shallowly embedded here:
* the MIME part tree walked by `GmailHandler._parse_parts` becomes the
  nested inductive `MimePart`;
* `_parse_message`, `_get_messages` and `_handle_list_messages_response`
  become functions over `GetOutcome` lists (each outcome is what the
  batched `users.messages.get` delivered for one listed id: either the
  message detail or an exception);
* the pagination loop of `call_gmail_api` becomes `apiLoop`, with the
  provider modelled as the list of responses it would return for the
  successive `list` calls, and wall-clock time modelled as an explicit
  stream of clock readings (one reading per loop iteration, as produced
  by `time.time()` at the top of the loop body);
* `EmailsTable.select`'s condition translation and projection, and
  `EmailsTable.insert`, become `translateConditions` / `selectProject` /
  `insertEmails` over a small relational `DataFrame` model.

Base64url decoding followed by UTF-8 decoding of inline text content is
delegated by the source to library code; it is kept as an explicit
function parameter `dec : String → String` throughout, so every theorem
holds for the actual decoder.  Exceptions raised by the Python code are
modelled with `Except`; `json.dumps` of the attachment list is modelled
by the list itself.
-/

namespace Gmail

/-- Python `str.lower()` (per-character lowercasing), written over the
character list so it evaluates in the kernel. -/
def toLowerStr (s : String) : String := String.mk (s.toList.map Char.toLower)

/-- Python `str.split(',')`: comma splitting over the character list
(`''.split(',') == ['']`, empty fields preserved). -/
def splitComma (s : String) : List String :=
  (s.toList.splitOn ',').map (fun l => String.mk l)

/-- Reassembling a comma-separated string from its fields, for the
round-trip property of the `label_ids` translation. -/
def joinComma (l : List String) : String :=
  String.mk (List.intercalate [','] (l.map String.toList))

/-- An attachment reference collected by `_parse_parts`
(`{'filename': ..., 'mimeType': ..., 'attachmentId': ...}`). -/
structure Att where
  filename : String
  mimeType : String
  attachmentId : String
deriving DecidableEq, Repr

/-- The `body` dict of a MIME part: optional inline `data`, optional
`attachmentId`. -/
structure MimePartBody where
  data : Option String
  attachmentId : Option String
deriving DecidableEq, Repr

/-- A node of the MIME part tree: `mimeType`, optional `filename`,
optional `body` dict, and the optional `parts` child list (absent key
modelled as `none`). -/
inductive MimePart : Type where
  | mk : String → Option String → Option MimePartBody → Option (List MimePart) → MimePart

def MimePart.mimeType : MimePart → String
  | .mk m _ _ _ => m

def MimePart.filename : MimePart → Option String
  | .mk _ f _ _ => f

def MimePart.body : MimePart → Option MimePartBody
  | .mk _ _ b _ => b

def MimePart.parts : MimePart → Option (List MimePart)
  | .mk _ _ _ ps => ps

/-- `part.get('body', {}).get('data', '')`. -/
def dataOf (p : MimePart) : String :=
  match p.body with
  | some b => b.data.getD ""
  | none => ""

/-- Python truthiness of an optional string (absent or empty is falsy). -/
def truthyStr : Option String → Bool
  | some s => !s.isEmpty
  | none => false

/-- Python truthiness of the optional `body` dict (absent or empty dict
is falsy; our `MimePartBody` dict is nonempty when either key is set). -/
def bodyTruthy : Option MimePartBody → Bool
  | some b => b.data.isSome || b.attachmentId.isSome
  | none => false

def attIdOf (p : MimePart) : Option String :=
  match p.body with
  | some b => b.attachmentId
  | none => none

/-- The guard of the attachment branch:
`part.get('filename') and part.get('body') and part.get('body').get('attachmentId')`. -/
def isAttachmentPart (p : MimePart) : Bool :=
  truthyStr p.filename && bodyTruthy p.body && truthyStr (attIdOf p)

/-- The attachment record appended by `_parse_parts`. -/
def mkAtt (p : MimePart) : Att :=
  { filename := p.filename.getD ""
    mimeType := p.mimeType
    attachmentId := (attIdOf p).getD "" }

/-- Errors the decoding walk can raise: `body += None` (`TypeError`,
when a nested `parts` list is empty so the recursive call returns
`None`), and `part['parts']` on a part without that key (`KeyError`). -/
inductive PErr : Type where
  | typeError
  | keyError
deriving DecidableEq, Repr

/-- The body of `_parse_parts` for a (non-falsy) part list: walks the
parts in order threading the accumulated body string and the shared
`attachments` list.  The recursive call on `part['parts']` is inlined:
an empty child list makes the inner call return `None` and the
`body += ...` then raises `TypeError`. -/
def parsePartsGo (dec : String → String) : List MimePart → String → List Att →
    Except PErr (String × List Att)
  | [], acc, atts => .ok (acc, atts)
  | .mk m f b ps :: rest, acc, atts =>
    if m == "text/plain" then
      parsePartsGo dec rest (acc ++ dec (dataOf (.mk m f b ps))) atts
    else if m == "multipart/alternative" || ps.isSome then
      match ps with
      | none => .error .keyError
      | some sub =>
        if sub.isEmpty then .error .typeError
        else
          match parsePartsGo dec sub "" atts with
          | .error e => .error e
          | .ok (bsub, atts2) => parsePartsGo dec rest (acc ++ bsub) atts2
    else if isAttachmentPart (.mk m f b ps) then
      parsePartsGo dec rest acc (atts ++ [mkAtt (.mk m f b ps)])
    else
      parsePartsGo dec rest acc atts

/-- `GmailHandler._parse_parts(parts, attachments)`: `None` (absent) or
empty `parts` returns `None` (modelled `none`); otherwise the walk above
runs and the string body is returned. -/
def parseParts (dec : String → String) (parts : Option (List MimePart))
    (attachments : List Att) : Except PErr (Option String × List Att) :=
  match parts with
  | none => .ok (none, attachments)
  | some [] => .ok (none, attachments)
  | some (p :: ps) =>
    match parsePartsGo dec (p :: ps) "" attachments with
    | .error e => .error e
    | .ok (b, atts) => .ok (some b, atts)

/-- Specification-side pure fold: the concatenation, in depth-first
traversal order (parts as listed, recursing into nested part lists), of
the decoded content of every `text/plain` part. -/
def textSpec (dec : String → String) : List MimePart → String
  | [] => ""
  | .mk m f b ps :: rest =>
    (if m == "text/plain" then dec (dataOf (.mk m f b ps))
     else if m == "multipart/alternative" || ps.isSome then
       match ps with
       | some sub => textSpec dec sub
       | none => ""
     else "") ++ textSpec dec rest

/-- Specification-side pure fold: the attachment references recorded in
depth-first traversal order (a part with a truthy filename, body and
attachment id that is neither `text/plain` nor carries nested parts). -/
def attsSpec : List MimePart → List Att
  | [] => []
  | .mk m f b ps :: rest =>
    (if m == "text/plain" then []
     else if m == "multipart/alternative" || ps.isSome then
       match ps with
       | some sub => attsSpec sub
       | none => []
     else if isAttachmentPart (.mk m f b ps) then [mkAtt (.mk m f b ps)]
     else []) ++ attsSpec rest

/-- Well-formedness of a part tree for the decoding walk: every part
that takes the nested branch actually carries a nonempty child list
(so no `KeyError` on a missing `parts` key and no `TypeError` from the
`None` returned for an empty child list). -/
def goodParts : List MimePart → Bool
  | [] => true
  | .mk m f b ps :: rest =>
    (if m == "text/plain" then true
     else if m == "multipart/alternative" || ps.isSome then
       match ps with
       | some sub => !sub.isEmpty && goodParts sub
       | none => false
     else true) && goodParts rest

/-- One row of the `emails` table as assembled by `_parse_message`.
Fields the source only sets when a matching header is present are
`Option`s (an absent dict key becomes a null cell in the frame); the
attachment list stands for its `json.dumps` serialization. -/
structure EmailRow where
  id : String
  thread_id : String
  label_ids : List String
  snippet : String
  history_id : String
  size_estimate : Nat
  «to» : Option String
  subject : Option String
  date : Option String
  sender : Option String
  message_id : Option String
  body : Option String
  attachments : List Att
deriving DecidableEq, Repr

/-- The `payload` of a fetched message: header list plus optional part
tree. -/
structure MsgPayload where
  headers : List (String × String)
  parts : Option (List MimePart)

/-- A fetched message detail (`users.messages.get` response).  Keys the
source reads with `[]` are plain fields, keys read with `.get` are
`Option`s. -/
structure GmailMessage where
  id : String
  threadId : String
  labelIds : Option (List String)
  snippet : Option String
  historyId : String
  sizeEstimate : Option Nat
  payload : MsgPayload

/-- The header loop of `_parse_message`: lower-cases each header name
and maps `to`/`subject`/`date` verbatim, `from` to `sender` and
`message-id` to `message_id`; later headers overwrite earlier ones. -/
def applyHeaders : EmailRow → List (String × String) → EmailRow
  | r, [] => r
  | r, (n, v) :: rest =>
    let k := toLowerStr n
    let r2 :=
      if k == "to" then { r with «to» := some v }
      else if k == "subject" then { r with subject := some v }
      else if k == "date" then { r with date := some v }
      else if k == "from" then { r with sender := some v }
      else if k == "message-id" then { r with message_id := some v }
      else r
    applyHeaders r2 rest

/-- The row `_parse_message` assembles for a message, given the decoded
body and collected attachments. -/
def buildRow (m : GmailMessage) (body : Option String) (atts : List Att) :
    EmailRow :=
  applyHeaders
    { id := m.id
      thread_id := m.threadId
      label_ids := m.labelIds.getD []
      snippet := m.snippet.getD ""
      history_id := m.historyId
      size_estimate := m.sizeEstimate.getD 0
      «to» := none, subject := none, date := none, sender := none
      message_id := none
      body := body
      attachments := atts }
    m.payload.headers

/-- Decode + project one message into its row (`_parse_message` without
the exception guard): `_parse_parts` runs on the payload's parts with a
fresh attachment list. -/
def parseMessageRow (dec : String → String) (m : GmailMessage) :
    Except PErr EmailRow :=
  match parseParts dec m.payload.parts [] with
  | .error e => .error e
  | .ok (body, atts) => .ok (buildRow m body atts)

/-- What the batched `users.messages.get` delivered for one listed id:
either the message detail or an exception. -/
inductive GetOutcome : Type where
  | success : GmailMessage → GetOutcome
  | failure : String → GetOutcome

/-- A `users.messages.list` response: optional `messages` list (each
carrying its eventual per-item get outcome) and optional
`nextPageToken`. -/
structure ListResponse where
  messages : Option (List GetOutcome)
  nextPageToken : Option String

/-- A row of the accumulated `data` list in `call_gmail_api`: either a
parsed email row or (for a response without a `messages` key) the raw
response dict itself. -/
inductive DataRow : Type where
  | parsed : EmailRow → DataRow
  | raw : ListResponse → DataRow

/-- `GmailHandler._parse_message(data, message, exception)`: a delivered
exception is logged and the item skipped (no row, no abort); otherwise
the message is decoded and its row appended. -/
def parse_message (dec : String → String) (data : List DataRow)
    (message : Option GmailMessage) (exception : Option String) :
    Except PErr (List DataRow) :=
  match exception with
  | some _ => .ok data
  | none =>
    match message with
    | none => .error .typeError
    | some m =>
      match parseMessageRow dec m with
      | .error e => .error e
      | .ok r => .ok (data ++ [.parsed r])

/-- `GmailHandler._get_messages`: the batch request invokes
`_parse_message` once per item, in order, threading `data`. -/
def get_messages (dec : String → String) (data : List DataRow) :
    List GetOutcome → Except PErr (List DataRow)
  | [] => .ok data
  | o :: rest =>
    match (match o with
           | .success m => parse_message dec data (some m) none
           | .failure e => parse_message dec data none (some e)) with
    | .error e => .error e
    | .ok d => get_messages dec d rest

/-- `self.max_batch_size`. -/
def max_batch_size : Nat := 100

/-- `self.max_page_size`. -/
def max_page_size : Int := 500

/-- `GmailHandler._handle_list_messages_response`: chunks the listed
messages into slices of `max_batch_size` (full pages first, then the
remainder, exactly as the source indexes them) and batch-fetches each
chunk. -/
def handle_list_messages_response (dec : String → String)
    (data : List DataRow) (messages : List GetOutcome) :
    Except PErr (List DataRow) := do
  let totalPages := messages.length / max_batch_size
  let d ← (List.range totalPages).foldlM
    (fun d page =>
      get_messages dec d ((messages.drop (page * max_batch_size)).take max_batch_size))
    data
  if messages.length % max_batch_size > 0 then
    get_messages dec d (messages.drop (totalPages * max_batch_size))
  else
    pure d

/-- The parameters of one outbound `list` call that matter to the loop:
the `maxResults` the iteration set (absent when no count limit governs
the fetch) and the `pageToken` currently in `params`. -/
structure CallParams where
  maxResults : Option Int
  pageToken : Option String
deriving DecidableEq, Repr

/-- Fatal outcomes of `call_gmail_api`: the 60-second deadline
(`RuntimeError('Handler request timeout error')`), a decoding exception
propagating out of the batch callbacks, or the environment running out
of scripted responses (the model's way of cutting off an infinite
provider trace). -/
inductive ApiError : Type where
  | timeout
  | parse : PErr → ApiError
  | noResponse
deriving DecidableEq, Repr

/-- What an iteration decides before issuing the call: stop with the
accumulated data (count limit reached or overshot, with trailing excess
discarded), or call with the `maxResults` to request. -/
inductive PreCall : Type where
  | stop : List DataRow → PreCall
  | callWith : Option Int → PreCall

/-- Lines 421-433 of the source: with a count limit `c`,
`left = c - len(data)`; zero stops, negative truncates (`data[:left]`
drops the trailing excess), otherwise the iteration requests
`min(left, max_page_size)`. -/
def preCall (countResults : Option Int) (data : List DataRow) : PreCall :=
  match countResults with
  | none => .callWith none
  | some c =>
    let left : Int := c - data.length
    if left = 0 then .stop data
    else if left < 0 then .stop (data.take ((data.length : Int) + left).toNat)
    else .callWith (some (if left > max_page_size then max_page_size else left))

/-- Lines 439-442: a response with a `messages` list goes through the
batch fetch engine; any other dict response is appended raw. -/
def processPage (dec : String → String) (data : List DataRow)
    (resp : ListResponse) : Except PErr (List DataRow) :=
  match resp.messages with
  | some msgs => handle_list_messages_response dec data msgs
  | none => .ok (data ++ [.raw resp])

/-- The `while True` loop of `call_gmail_api`.  `clock i` is the
`time.time()` reading at the top of iteration `i`; `limit` is the
deadline computed before the loop; `responses` is the provider's answer
stream for successive `list` calls; `calls` records the parameters of
every call issued.  Pagination continues only when a count limit is set
and the response carries a `nextPageToken` (line 444), echoing that
token back verbatim. -/
def apiLoop (dec : String → String) (countResults : Option Int)
    (limit : Nat) (clock : Nat → Nat) :
    List ListResponse → Option String → Nat → List DataRow →
    List CallParams → List CallParams × Except ApiError (List DataRow)
  | responses, pt, i, data, calls =>
    if clock i > limit then (calls, .error .timeout)
    else
      match preCall countResults data with
      | .stop d => (calls, .ok d)
      | .callWith mr =>
        match responses with
        | [] => (calls, .error .noResponse)
        | resp :: rest =>
          let calls2 := calls ++ [⟨mr, pt⟩]
          match processPage dec data resp with
          | .error e => (calls2, .error (.parse e))
          | .ok data2 =>
            if countResults.isSome && resp.nextPageToken.isSome then
              apiLoop dec countResults limit clock rest resp.nextPageToken
                (i + 1) data2 calls2
            else (calls2, .ok data2)

/-- `GmailHandler.call_gmail_api` for `list_messages`: the count limit
is `params['maxResults']` when the query carried a limit; the deadline
is the starting clock reading plus 60 seconds. -/
def call_gmail_api (dec : String → String) (countResults : Option Int)
    (startTime : Nat) (clock : Nat → Nat) (responses : List ListResponse) :
    List CallParams × Except ApiError (List DataRow) :=
  apiLoop dec countResults (startTime + 60) clock responses none 0 [] []

/-- A message detail with no optional fields and no payload parts, for
concrete scenarios. -/
def simpleMsg (s : String) : GmailMessage :=
  { id := s, threadId := s, labelIds := none, snippet := none
    historyId := s, sizeEstimate := none, payload := { headers := [], parts := none } }

/-- The row `_parse_message` produces for `simpleMsg s`. -/
def simpleRow (s : String) : EmailRow := buildRow (simpleMsg s) none []

/-! ## The `emails` table: condition translation, projection, insert -/

/-- Errors of `EmailsTable.select`'s condition translation
(`NotImplementedError` with the respective message). -/
inductive TransErr : Type where
  | unsupportedPredicate
  | unsupportedField
deriving DecidableEq, Repr

/-- The provider parameters assembled from the WHERE conditions:
`q`, `labelIds` (the comma-split list) and `includeSpamTrash` (the
condition's value passed through verbatim). -/
structure ListCallParams where
  q : Option String
  labelIds : Option (List String)
  includeSpamTrash : Option String
deriving DecidableEq, Repr

def emptyListCallParams : ListCallParams := ⟨none, none, none⟩

/-- One pass of the condition loop in `EmailsTable.select` (lines
59-76): `or` fails first; a recognized field with `=` assigns its
parameter; a recognized field with any other operator fails with
`Unknown op`; any other field fails with `Unknown clause`. -/
def applyCondition (p : ListCallParams) :
    String × String × String → Except TransErr ListCallParams
  | (op, arg1, arg2) =>
    if op == "or" then .error .unsupportedPredicate
    else if arg1 == "query" || arg1 == "label_ids" || arg1 == "include_spam_trash" then
      if op == "=" then
        if arg1 == "query" then .ok { p with q := some arg2 }
        else if arg1 == "label_ids" then .ok { p with labelIds := some (splitComma arg2) }
        else .ok { p with includeSpamTrash := some arg2 }
      else .error .unsupportedPredicate
    else .error .unsupportedField

/-- The whole condition loop, threading the params dict. -/
def translateConditions : List (String × String × String) → ListCallParams →
    Except TransErr ListCallParams
  | [], p => .ok p
  | c :: rest, p =>
    match applyCondition p c with
    | .error e => .error e
    | .ok p2 => translateConditions rest p2

/-- A data-frame cell: `none` is a null (`None`/`NaN`). -/
abbrev Cell := Option String

/-- A pandas data frame, as `select` manipulates it: named columns and
rows of cells (row `r` cell `j` belongs to column `columns[j]`). -/
structure DataFrame where
  columns : List String
  rows : List (List Cell)
deriving DecidableEq, Repr

/-- The cell of row `r` under column `c` of `df`. -/
def cellAt (df : DataFrame) (r : List Cell) (c : String) : Cell :=
  match df.columns.indexOf? c with
  | some i => r.getD i none
  | none => none

/-- Lines 103-105: `result[col] = None` for every requested column
absent from the fetched frame. -/
def addMissing (df : DataFrame) (cols : List String) : DataFrame :=
  let missing := (cols.filter (fun c => !df.columns.contains c)).eraseDups
  { columns := df.columns ++ missing
    rows := df.rows.map (fun r => r ++ missing.map (fun _ => (none : Cell))) }

/-- Line 108: `result = result[columns]` — project to exactly the named
columns, in order. -/
def projectCols (df : DataFrame) (cols : List String) : DataFrame :=
  { columns := cols
    rows := df.rows.map (fun r => cols.map (fun c => cellAt df r c)) }

/-- `df.rename(columns={old: new})`: every column equal to `old` is
renamed; a missing key is silently ignored. -/
def renameCols (df : DataFrame) (old new : String) : DataFrame :=
  { df with columns := df.columns.map (fun c => if c == old then new else c) }

/-- A projection target of the SELECT: `*`, an identifier (its dotted
parts and optional alias), or anything else (which `select` rejects). -/
inductive Target : Type where
  | star
  | ident : List String → Option String → Target
  | other
deriving DecidableEq, Repr

/-- `NotImplementedError(f"Unknown query target ...")`. -/
inductive SelErr : Type where
  | unsupportedProjection
deriving DecidableEq, Repr

/-- `EmailsTable.get_columns`. -/
def get_columns : List String :=
  ["id", "message_id", "thread_id", "label_ids", "sender", "to", "date",
   "subject", "snippet", "history_id", "size_estimate", "body", "attachments"]

/-- The target loop of `select` (lines 87-95): a `*` replaces the
accumulated list with the full fixed schema and stops; an identifier
appends its last part; anything else raises. -/
def collectColumns : List Target → List String → Except SelErr (List String)
  | [], acc => .ok acc
  | .star :: _, _ => .ok get_columns
  | .ident ps _ :: rest, acc => collectColumns rest (acc ++ [ps.getLastD ""])
  | .other :: _, _ => .error .unsupportedProjection

/-- The rename loop of `select` (lines 111-113): for each aliased
target, rename the column named by the identifier's last part — as
written, not lower-cased — to the alias. -/
def renameAll : List Target → DataFrame → DataFrame
  | [], df => df
  | .star :: rest, df => renameAll rest df
  | .ident ps al :: rest, df =>
    match al with
    | some a => renameAll rest (renameCols df (ps.getLastD "") a)
    | none => renameAll rest df
  | .other :: rest, df => renameAll rest df

/-- The projection part of `EmailsTable.select` (lines 86-115), applied
to the frame returned by `call_gmail_api`: collect target columns,
lower-case them, return an empty frame with those columns when no rows
were fetched (skipping the rename), otherwise null-fill the missing
columns, project and rename aliases. -/
def selectProject (targets : List Target) (result : DataFrame) :
    Except SelErr DataFrame :=
  match collectColumns targets [] with
  | .error e => .error e
  | .ok cols0 =>
    let cols := cols0.map toLowerStr
    if result.rows.isEmpty then .ok { columns := cols, rows := [] }
    else .ok (renameAll targets (projectCols (addMissing result cols) cols))

/-- `ValueError`s of `EmailsTable.insert`. -/
inductive InsErr : Type where
  | unsupportedColumn
  | missingRecipient
deriving DecidableEq, Repr

/-- The supported insert columns. -/
def supported_columns : List String :=
  ["message_id", "thread_id", "to_email", "subject", "body"]

/-- `params = dict(zip(columns, row))` lookup: the value of the LAST
occurrence of `k` among the zipped pairs (dict semantics), `none` when
the key is absent (also when the row is shorter than the column list —
`zip` truncates). -/
def rowParam (columns row : List String) (k : String) : Option String :=
  ((columns.zip row).reverse.find? (fun pr => pr.1 == k)).map (fun pr => pr.2)

/-- The outbound `EmailMessage` built for one row: `To`, `Subject`,
content, and the threading headers set when both `thread_id` and
`message_id` are supplied. -/
structure OutMessage where
  «to» : String
  subject : String
  content : String
  inReplyTo : Option String
  references : Option String
deriving DecidableEq, Repr

/-- The `send_message` payload: `raw` (standing for the base64url-coded
RFC822 bytes of the message) plus `threadId` when `thread_id` was
supplied. -/
structure SendPayload where
  raw : OutMessage
  threadId : Option String
deriving DecidableEq, Repr

/-- Lines 167-190 for one value row: `None` when `to_email` is missing
(the `ValueError` path), otherwise the built payload. -/
def buildPayload (columns row : List String) : Option SendPayload :=
  match rowParam columns row "to_email" with
  | none => none
  | some te =>
    let thr := rowParam columns row "thread_id"
    let mid := rowParam columns row "message_id"
    some
      { raw :=
          { «to» := te
            subject := (rowParam columns row "subject").getD ""
            content := (rowParam columns row "body").getD ""
            inReplyTo := if thr.isSome && mid.isSome then mid else none
            references := if thr.isSome && mid.isSome then mid else none }
        threadId := thr }

/-- The row loop of `insert`: each accepted row sends one payload; a row
without `to_email` raises after the earlier sends already happened, so
the sends made so far are returned alongside the error. -/
def insertRows (columns : List String) :
    List (List String) → List SendPayload → List SendPayload × Option InsErr
  | [], sends => (sends, none)
  | row :: rest, sends =>
    match buildPayload columns row with
    | none => (sends, some .missingRecipient)
    | some p => insertRows columns rest (sends ++ [p])

/-- `EmailsTable.insert`: the column set is validated against
`supported_columns` before any row is processed; then each row is built
and sent in order.  The result is the list of send calls made and the
error, if one was raised. -/
def insertEmails (columns : List String) (values : List (List String)) :
    List SendPayload × Option InsErr :=
  if columns.all (fun c => supported_columns.contains c) then
    insertRows columns values []
  else ([], some .unsupportedColumn)

/-- Whether a batched get outcome delivered a message detail. -/
def isSuccessOutcome : GetOutcome → Bool
  | .success _ => true
  | .failure _ => false

/-- Whether an outcome's item, when a detail was delivered, decodes
without raising (failures trivially count: they are skipped). -/
def outcomeParses (dec : String → String) : GetOutcome → Bool
  | .failure _ => true
  | .success m =>
    match parseMessageRow dec m with
    | .ok _ => true
    | .error _ => false

/-! ## Helper lemmas -/

theorem parsePartsGo_eq (dec : String → String) :
    ∀ n ps, sizeOf ps ≤ n → goodParts ps = true →
      ∀ acc atts, parsePartsGo dec ps acc atts =
        .ok (acc ++ textSpec dec ps, atts ++ attsSpec ps) := by
  intro n
  induction n with
  | zero =>
    intro ps hsz _ acc atts
    match ps with
    | [] => simp [parsePartsGo, textSpec, attsSpec]
    | p :: rest => simp at hsz
  | succ n ih =>
    intro ps hsz hg acc atts
    match ps with
    | [] => simp [parsePartsGo, textSpec, attsSpec]
    | .mk m f b psub :: rest =>
      simp at hsz
      have hrest : sizeOf rest ≤ n := by omega
      rw [goodParts.eq_def] at hg
      rw [parsePartsGo.eq_def, textSpec.eq_def, attsSpec.eq_def]
      simp only [Bool.and_eq_true] at hg
      obtain ⟨hhead, hgrest⟩ := hg
      by_cases hm : (m == "text/plain") = true
      · simp only [hm, if_true]
        rw [ih rest hrest hgrest]
        simp [String.append_assoc, List.append_assoc]
      · simp only [hm, Bool.false_eq_true, if_false] at hhead ⊢
        by_cases hn : (m == "multipart/alternative" || psub.isSome) = true
        · simp only [hn, if_true] at hhead ⊢
          match psub with
          | none => simp at hhead
          | some sub =>
            simp at hsz
            have hsub : sizeOf sub ≤ n := by omega
            simp only [Bool.and_eq_true, Bool.not_eq_true'] at hhead
            obtain ⟨hne, hgsub⟩ := hhead
            simp only [hne, Bool.false_eq_true, if_false]
            rw [ih sub hsub hgsub]
            dsimp only
            rw [ih rest hrest hgrest]
            simp [String.append_assoc, String.empty_append, List.append_assoc]
        · simp only [hn, Bool.false_eq_true, if_false]
          by_cases ha : isAttachmentPart (.mk m f b psub) = true
          · simp only [ha, if_true]
            rw [ih rest hrest hgrest]
            simp [String.append_assoc, List.append_assoc]
          · simp only [ha, Bool.false_eq_true, if_false]
            rw [ih rest hrest hgrest]
            simp [String.append_assoc, List.append_assoc]

theorem findIdx_append_self (m : String) :
    ∀ (l : List String) (i : Nat), m ∉ l →
      List.findIdx? (fun x => x == m) (l ++ [m]) i = some (i + l.length) := by
  intro l
  induction l with
  | nil => intro i _; simp [List.findIdx?_cons]
  | cons a rest ih =>
    intro i h
    have ha : ¬ (a == m) = true := by
      simp only [beq_iff_eq]
      rintro rfl
      exact h (List.mem_cons_self a rest)
    have hrest : m ∉ rest := fun hh => h (List.mem_cons_of_mem _ hh)
    rw [List.cons_append, List.findIdx?_cons, if_neg ha, ih (i + 1) hrest]
    simp only [List.length_cons]
    congr 1
    omega

theorem joinComma_splitComma (v : String) : joinComma (splitComma v) = v := by
  unfold joinComma splitComma
  rw [List.map_map]
  have h1 : (String.toList ∘ fun l => String.mk l) = id := rfl
  rw [h1, List.map_id, List.intercalate_splitOn]
  cases v
  rfl

theorem get_messages_ok (dec : String → String) :
    ∀ (msgs : List GetOutcome) (data : List DataRow),
      (∀ o ∈ msgs, outcomeParses dec o = true) →
      ∃ r, get_messages dec data msgs = .ok r ∧
        r.length = data.length + msgs.countP isSuccessOutcome := by
  intro msgs
  induction msgs with
  | nil => intro data _; exact ⟨data, rfl, by simp [List.countP_nil]⟩
  | cons o rest ih =>
    intro data hok
    have hrest : ∀ x ∈ rest, outcomeParses dec x = true :=
      fun x hx => hok x (List.mem_cons_of_mem _ hx)
    match o with
    | .failure e =>
      obtain ⟨r, hr, hlen⟩ := ih data hrest
      refine ⟨r, ?_, ?_⟩
      · rw [get_messages]
        simpa [parse_message] using hr
      · rw [hlen, List.countP_cons]
        simp [isSuccessOutcome]
    | .success m =>
      have hparse := hok _ (List.mem_cons_self _ _)
      rw [outcomeParses] at hparse
      match hm : parseMessageRow dec m with
      | .error e => rw [hm] at hparse; simp at hparse
      | .ok row =>
        obtain ⟨r, hr, hlen⟩ := ih (data ++ [.parsed row]) hrest
        refine ⟨r, ?_, ?_⟩
        · rw [get_messages]
          simpa [parse_message, hm] using hr
        · rw [hlen, List.countP_cons]
          simp [isSuccessOutcome]
          omega

theorem rowParam_eq_none (columns row : List String) (k : String)
    (hk : k ∉ columns) : rowParam columns row k = none := by
  have hnone : List.find? (fun pr => pr.1 == k) (columns.zip row).reverse = none := by
    rw [List.find?_eq_none]
    intro pr hpr
    have hmem := List.of_mem_zip (List.mem_reverse.mp hpr)
    simp only [beq_iff_eq]
    intro he
    exact hk (he ▸ hmem.1)
  rw [rowParam, hnone]
  rfl

theorem rowParam_isSome (columns row : List String) (k : String)
    (hk : k ∈ columns) (hlen : columns.length ≤ row.length) :
    (rowParam columns row k).isSome = true := by
  obtain ⟨i, hi, hget⟩ := List.mem_iff_getElem.mp hk
  have hiz : i < (columns.zip row).length := by
    rw [List.length_zip]
    omega
  have hir : i < row.length := by omega
  have hpair : (columns.zip row)[i] = (columns[i], row[i]) := List.getElem_zip
  have hfind : (List.find? (fun pr => pr.1 == k) (columns.zip row).reverse).isSome = true := by
    rw [List.find?_isSome]
    refine ⟨(columns.zip row)[i], List.mem_reverse.mpr (List.getElem_mem hiz), ?_⟩
    rw [hpair]
    simp [hget]
  rw [rowParam]
  cases hf : List.find? (fun pr => pr.1 == k) (columns.zip row).reverse with
  | none => rw [hf] at hfind; simp at hfind
  | some pr => simp [hf]

theorem insertRows_all_sent (columns : List String) :
    ∀ (values : List (List String)) (sends : List SendPayload),
      (∀ r ∈ values, (buildPayload columns r).isSome = true) →
      (insertRows columns values sends).2 = none ∧
        (insertRows columns values sends).1.length = sends.length + values.length := by
  intro values
  induction values with
  | nil => intro sends _; exact ⟨rfl, by simp [insertRows]⟩
  | cons row rest ih =>
    intro sends hall
    have hrow := hall row (List.mem_cons_self _ _)
    match hb : buildPayload columns row with
    | none => rw [hb] at hrow; simp at hrow
    | some p =>
      have hrest : ∀ r ∈ rest, (buildPayload columns r).isSome = true :=
        fun r hr => hall r (List.mem_cons_of_mem _ hr)
      obtain ⟨h1, h2⟩ := ih (sends ++ [p]) hrest
      rw [insertRows, hb]
      refine ⟨h1, ?_⟩
      rw [h2]
      simp only [List.length_append, List.length_cons, List.length_nil]
      omega

theorem lower_get_columns : get_columns.map toLowerStr = get_columns := by decide

/-! ## Claim theorems -/

/-- Claim C1, corrected.  The claim says that with no result-count limit
the fetch keeps echoing continuation tokens until an untokened response
arrives.  In the code, line 444 continues the loop only when
`count_results is not None`, so with no limit exactly one `list` call is
issued (carrying no `maxResults`), the page is processed, and any
continuation token is ignored; pagination by token happens only when a
limit is set. -/
theorem no_limit_single_list_call (dec : String → String) (limit : Nat)
    (clock : Nat → Nat) (pt : Option String) (i : Nat) (data : List DataRow)
    (calls : List CallParams) (resp : ListResponse) (rest : List ListResponse)
    (startTime : Nat)
    (h : ¬ clock i > limit) (h0 : ¬ clock 0 > startTime + 60) :
    apiLoop dec none limit clock (resp :: rest) pt i data calls =
      (calls ++ [⟨none, pt⟩], (processPage dec data resp).mapError ApiError.parse) ∧
    call_gmail_api dec none startTime clock (resp :: rest) =
      ([⟨none, none⟩], (processPage dec [] resp).mapError ApiError.parse) := by
  have key : ∀ (pt' : Option String) (i' : Nat) (data' : List DataRow)
      (calls' : List CallParams) (lim' : Nat), ¬ clock i' > lim' →
      apiLoop dec none lim' clock (resp :: rest) pt' i' data' calls' =
        (calls' ++ [⟨none, pt'⟩],
          (processPage dec data' resp).mapError ApiError.parse) := by
    intro pt' i' data' calls' lim' h'
    rw [apiLoop.eq_def]
    dsimp only
    rw [if_neg h']
    dsimp only [preCall]
    cases hp : processPage dec data' resp with
    | error e => simp [hp, Except.mapError]
    | ok d => simp [hp, Except.mapError]
  refine ⟨key pt i data calls limit h, ?_⟩
  rw [call_gmail_api, key none 0 [] [] (startTime + 60) h0]
  simp

/-- Witness for C1's theorem at a concrete tokened page. -/
theorem no_limit_single_list_call_witness :
    apiLoop id none 100 (fun _ => 0) [⟨none, some "TOK"⟩] none 0 [] [] =
      ([⟨none, none⟩],
        (processPage id [] ⟨none, some "TOK"⟩).mapError ApiError.parse) ∧
    call_gmail_api id none 7 (fun _ => 0) [⟨none, some "TOK"⟩] =
      ([⟨none, none⟩],
        (processPage id [] ⟨none, some "TOK"⟩).mapError ApiError.parse) :=
  no_limit_single_list_call id 100 (fun _ => 0) none 0 [] [] ⟨none, some "TOK"⟩ []
    7 (by decide) (by decide)

/-- Counterexample to claim C1 as stated: a provider with two pages
(tokened then untokened) and no count limit.  The code issues a single
`list` call and returns only the first page's row — not the union of the
two pages. -/
theorem no_limit_two_pages_counterexample :
    call_gmail_api (fun s => s) none 0 (fun _ => 0)
      [⟨some [.success (simpleMsg "a")], some "TOK"⟩,
       ⟨some [.success (simpleMsg "b")], none⟩] =
      ([⟨none, none⟩], .ok [.parsed (simpleRow "a")]) ∧
    [DataRow.parsed (simpleRow "a")] ≠
      [DataRow.parsed (simpleRow "a"), DataRow.parsed (simpleRow "b")] :=
  ⟨rfl, by simp⟩

/-- Claim C2: with a count limit, each iteration requests
`min(remaining, max_page_size = 500)`, the loop stops (without another
call) when the remaining count reaches zero, and an overshooting page is
truncated at the limit, keeping arrival order.  In the concrete
scenario, `max_results = 5` against provider pages of 3, 3 and 3 yields
the two calls `maxResults=5` and `maxResults=2` (echoing the first
page's token) and exactly the first five rows; the third page is never
requested. -/
theorem limit_paging_truncation (dec : String → String) (limit : Nat)
    (clock : Nat → Nat) (pt : Option String) (i : Nat) (data data2 : List DataRow)
    (calls : List CallParams) (c c2 : Int) (resps : List ListResponse)
    (h : ¬ clock i > limit) (hc : c = data.length)
    (h2 : 0 < c2 - (data2.length : Int)) :
    call_gmail_api (fun s => s) (some 5) 0 (fun _ => 0)
      [⟨some [.success (simpleMsg "a"), .success (simpleMsg "b"),
              .success (simpleMsg "c")], some "t1"⟩,
       ⟨some [.success (simpleMsg "d"), .success (simpleMsg "e"),
              .success (simpleMsg "f")], some "t2"⟩,
       ⟨some [.success (simpleMsg "g"), .success (simpleMsg "h"),
              .success (simpleMsg "i")], some "t3"⟩] =
      ([⟨some 5, none⟩, ⟨some 2, some "t1"⟩],
       .ok [.parsed (simpleRow "a"), .parsed (simpleRow "b"),
            .parsed (simpleRow "c"), .parsed (simpleRow "d"),
            .parsed (simpleRow "e")]) ∧
    apiLoop dec (some c) limit clock resps pt i data calls = (calls, .ok data) ∧
    preCall (some c2) data2 =
      .callWith (some (min (c2 - data2.length) max_page_size)) := by
  refine ⟨rfl, ?_, ?_⟩
  · rw [apiLoop.eq_def]
    dsimp only
    rw [if_neg h]
    have hz : c - (data.length : Int) = 0 := by omega
    simp [preCall, hz]
  · rw [preCall]
    have hz1 : ¬ (c2 - (data2.length : Int) = 0) := by omega
    have hz2 : ¬ (c2 - (data2.length : Int) < 0) := by omega
    simp only [hz1, hz2, if_false]
    rcases le_or_lt (c2 - (data2.length : Int)) max_page_size with hle | hlt
    · rw [if_neg (not_lt.mpr hle), min_eq_left hle]
    · rw [if_pos hlt, min_eq_right (le_of_lt hlt)]

/-- Witness for C2's theorem: remaining 0 stops, remaining 2 requests 2. -/
theorem limit_paging_truncation_witness :
    apiLoop id (some 0) 100 (fun _ => 0) [] none 0 [] [] = ([], .ok []) ∧
    preCall (some 2) [] = .callWith (some (min ((2 : Int) - 0) max_page_size)) := by
  have h := limit_paging_truncation id 100 (fun _ => 0) none 0 [] [] [] 0 2 []
    (by decide) (by decide) (by decide)
  exact ⟨h.2.1, by simpa using h.2.2⟩

/-- Claim C3: a per-item failure delivered to the batch callback is
skipped without a row and without aborting anything (first conjunct),
and a 100-item chunk whose outcomes contain exactly one failure (the
other 99 decoding fine) produces exactly 99 new rows and an overall
success (second conjunct). -/
theorem batch_partial_failure (dec : String → String) (data : List DataRow)
    (msgs : List GetOutcome) (e : String)
    (hlen : msgs.length = 100)
    (hfail : msgs.countP (fun o => !isSuccessOutcome o) = 1)
    (hok : ∀ o ∈ msgs, outcomeParses dec o = true) :
    parse_message dec data none (some e) = .ok data ∧
    ∃ r, handle_list_messages_response dec data msgs = .ok r ∧
      r.length = data.length + 99 := by
  refine ⟨rfl, ?_⟩
  have hsucc : msgs.countP isSuccessOutcome = 99 := by
    have hsplit := List.length_eq_countP_add_countP isSuccessOutcome msgs
    have hfun : (fun a => decide (¬ isSuccessOutcome a = true)) =
        (fun o => !isSuccessOutcome o) := by
      funext o
      cases h : isSuccessOutcome o <;> simp [h]
    rw [hfun, hfail] at hsplit
    omega
  obtain ⟨r, hr, hrlen⟩ := get_messages_ok dec msgs data hok
  refine ⟨r, ?_, by omega⟩
  have htake : msgs.take 100 = msgs := by
    rw [← hlen]
    exact List.take_length msgs
  rw [handle_list_messages_response, hlen]
  simp only [max_batch_size, Nat.reduceDiv, show List.range 1 = [0] from rfl,
    Nat.zero_mul, Nat.mul_one, List.foldlM, List.drop_zero, htake, Nat.reduceMod]
  simp only [bind, Except.bind, hr]
  rfl

/-- Witness for C3's theorem: 99 well-formed details and one delivered
exception in a single 100-item chunk. -/
theorem batch_partial_failure_witness :
    parse_message id [] none (some "boom") = .ok [] ∧
    ∃ r, handle_list_messages_response id []
        (List.replicate 99 (GetOutcome.success (simpleMsg "m")) ++
          [GetOutcome.failure "boom"]) = .ok r ∧
      r.length = List.length ([] : List DataRow) + 99 :=
  batch_partial_failure id []
    (List.replicate 99 (GetOutcome.success (simpleMsg "m")) ++
      [GetOutcome.failure "boom"]) "boom"
    (by decide) (by decide) (by decide)

/-- Claim C4: the loop carries the deadline `startTime + 60`; a clock
reading beyond it at the top of any iteration makes the whole query fail
with the timeout error — fatal, no retry, and the error result carries
no rows (in particular a first-iteration overrun returns no calls and no
rows at all). -/
theorem deadline_timeout_fatal (dec : String → String) (cr : Option Int)
    (limit : Nat) (clock : Nat → Nat) (resps resps2 : List ListResponse)
    (pt : Option String) (i : Nat) (data : List DataRow)
    (calls : List CallParams) (startTime : Nat)
    (h : clock i > limit) (h0 : clock 0 > startTime + 60) :
    apiLoop dec cr limit clock resps pt i data calls =
      (calls, .error .timeout) ∧
    call_gmail_api dec cr startTime clock resps2 = ([], .error .timeout) := by
  have key : ∀ (resps' : List ListResponse) (pt' : Option String) (i' : Nat)
      (data' : List DataRow) (calls' : List CallParams) (lim' : Nat),
      clock i' > lim' →
      apiLoop dec cr lim' clock resps' pt' i' data' calls' =
        (calls', .error .timeout) := by
    intro resps' pt' i' data' calls' lim' h'
    rw [apiLoop.eq_def]
    dsimp only
    rw [if_pos h']
  exact ⟨key resps pt i data calls limit h,
    key resps2 none 0 [] [] (startTime + 60) h0⟩

/-- Witness for C4's theorem: a clock that is already 100 seconds past a
deadline of 60 seconds from start time 0. -/
theorem deadline_timeout_fatal_witness :
    apiLoop id none 60 (fun _ => 100) [] none 0 [] [] =
      ([], .error .timeout) ∧
    call_gmail_api id none 0 (fun _ => 100) [] = ([], .error .timeout) :=
  deadline_timeout_fatal id none 60 (fun _ => 100) [] [] none 0 [] [] 0
    (by decide) (by decide)

/-- Claim C5: on a well-formed part tree (every nested branch has a
nonempty child list), `_parse_parts` succeeds without raising, its body
is the concatenation of the decoded content of every `text/plain` part
in depth-first traversal order, and its attachment list collects, in the
same order, every part with a truthy filename, body and attachment id
(taken by the source's branch order: such a part is recorded when it is
neither `text/plain` nor carries nested parts; every other mime type
contributes nothing). -/
theorem decode_parts_depth_first (dec : String → String)
    (ps : List MimePart) (atts0 : List Att)
    (hne : ps ≠ []) (hg : goodParts ps = true) :
    parseParts dec (some ps) atts0 =
      .ok (some (textSpec dec ps), atts0 ++ attsSpec ps) := by
  match ps, hne with
  | p :: rest, _ =>
    rw [parseParts]
    rw [parsePartsGo_eq dec (sizeOf (p :: rest)) (p :: rest) le_rfl hg "" atts0]
    rw [String.empty_append]

/-- Witness for C5's theorem: a tree with one `text/plain` part
decoding to `"Hello"` and one attachment part carrying filename
`file.pdf` and attachment id `A1`. -/
theorem decode_parts_depth_first_witness :
    parseParts id
      (some [MimePart.mk "text/plain" none (some ⟨some "Hello", none⟩) none,
             MimePart.mk "application/pdf" (some "file.pdf")
               (some ⟨none, some "A1"⟩) none]) [] =
      .ok (some "Hello", [⟨"file.pdf", "application/pdf", "A1"⟩]) := by
  rw [decode_parts_depth_first id _ [] (by simp) (by simp [goodParts])]
  have ht : textSpec id [MimePart.mk "text/plain" none (some ⟨some "Hello", none⟩) none,
      MimePart.mk "application/pdf" (some "file.pdf") (some ⟨none, some "A1"⟩) none] =
      "Hello" := by
    simp [textSpec, dataOf, MimePart.body]
  have ha : attsSpec [MimePart.mk "text/plain" none (some ⟨some "Hello", none⟩) none,
      MimePart.mk "application/pdf" (some "file.pdf") (some ⟨none, some "A1"⟩) none] =
      [⟨"file.pdf", "application/pdf", "A1"⟩] := by
    simp [attsSpec, isAttachmentPart, truthyStr, bodyTruthy, attIdOf, mkAtt,
      MimePart.body, MimePart.filename, MimePart.mimeType]
    decide
  rw [ht, ha]
  rfl

/-- Claim C6, corrected.  `*` projects to exactly the fixed 13-column
schema (already lower case); an explicit column list returns exactly
those columns with any column absent from the fetched frame filled with
null before projection; and an alias renames its column without changing
the row values — provided the result is non-empty and the identifier is
written in lower case.  (The rename keys off the identifier as written
while the data columns were lower-cased, so a mixed-case aliased
identifier is silently left unrenamed — see the counterexample; the
empty-result early return also skips the rename.) -/
theorem projection_schema_nullfill_alias (df : DataFrame) (m n a : String)
    (h0 : ∀ r ∈ df.rows, r.length = df.columns.length)
    (hm : toLowerStr m = m) (hmiss : df.columns.contains m = false)
    (hne : df.rows.isEmpty = false) (hn : toLowerStr n = n) :
    (selectProject [Target.star] df).map DataFrame.columns = .ok get_columns ∧
    selectProject [Target.ident [m] none] df =
      .ok { columns := [m], rows := df.rows.map (fun _ => [none]) } ∧
    (selectProject [Target.ident [n] (some a)] df =
       .ok { columns := [a], rows := (projectCols (addMissing df [n]) [n]).rows } ∧
     selectProject [Target.ident [n] none] df =
       .ok { columns := [n], rows := (projectCols (addMissing df [n]) [n]).rows }) := by
  refine ⟨?_, ?_, ?_, ?_⟩
  · rw [selectProject]
    simp only [collectColumns, lower_get_columns]
    cases h : df.rows.isEmpty <;> simp [h, renameAll, projectCols, Except.map]
  · have hnotmem : m ∉ df.columns := by simpa using hmiss
    have hcol : collectColumns [Target.ident [m] none] [] = .ok [m] := rfl
    rw [selectProject, hcol]
    dsimp only
    rw [show List.map toLowerStr [m] = [m] by simp [hm]]
    cases h : df.rows.isEmpty with
    | true =>
      have : df.rows = [] := List.isEmpty_iff.mp h
      simp [this]
    | false =>
      simp only [Bool.false_eq_true, if_false, renameAll]
      have hft : (!df.columns.contains m) = true := by rw [hmiss]; rfl
      have hadd : addMissing df [m] =
          { columns := df.columns ++ [m], rows := df.rows.map (fun r => r ++ [none]) } := by
        rw [addMissing]
        simp only [List.filter_cons, hft, if_true, List.filter_nil]
        have : List.eraseDups [m] = [m] := rfl
        simp [this]
      rw [hadd, projectCols]
      simp only [Except.ok.injEq, DataFrame.mk.injEq, true_and]
      rw [List.map_map]
      apply List.map_congr_left
      intro r hr
      simp only [Function.comp_apply, List.map_cons, List.map_nil]
      have hidx : (df.columns ++ [m]).indexOf? m = some df.columns.length := by
        rw [List.indexOf?]
        simpa using findIdx_append_self m df.columns 0 hnotmem
      have hcell : cellAt
          { columns := df.columns ++ [m], rows := df.rows.map (fun r => r ++ [none]) }
          (r ++ [none]) m = none := by
        rw [cellAt]
        simp only [hidx]
        rw [List.getD_append_right r [none] none df.columns.length
          (le_of_eq (h0 r hr))]
        cases df.columns.length - r.length with
        | zero => rfl
        | succ k => rfl
      rw [hcell]
  · have hcol1 : collectColumns [Target.ident [n] (some a)] [] = .ok [n] := rfl
    rw [selectProject, hcol1]
    dsimp only
    rw [show List.map toLowerStr [n] = [n] by simp [hn]]
    simp only [hne, Bool.false_eq_true, if_false, renameAll, renameCols]
    simp [projectCols]
  · have hcol2 : collectColumns [Target.ident [n] none] [] = .ok [n] := rfl
    rw [selectProject, hcol2]
    dsimp only
    rw [show List.map toLowerStr [n] = [n] by simp [hn]]
    simp only [hne, Bool.false_eq_true, if_false, renameAll]
    rfl

/-- Witness for C6's theorem on a one-column, one-row frame: `zzz` is a
missing column (filled with null), `subject` an existing lower-case
column renamed to `s` by its alias. -/
theorem projection_schema_nullfill_alias_witness :
    (selectProject [Target.star] ⟨["subject"], [[some "x"]]⟩).map DataFrame.columns =
      .ok get_columns ∧
    selectProject [Target.ident ["zzz"] none] ⟨["subject"], [[some "x"]]⟩ =
      .ok { columns := ["zzz"],
            rows := ([[some "x"]] : List (List Cell)).map (fun _ => [none]) } ∧
    (selectProject [Target.ident ["subject"] (some "s")] ⟨["subject"], [[some "x"]]⟩ =
       .ok { columns := ["s"],
             rows := (projectCols (addMissing ⟨["subject"], [[some "x"]]⟩ ["subject"])
               ["subject"]).rows } ∧
     selectProject [Target.ident ["subject"] none] ⟨["subject"], [[some "x"]]⟩ =
       .ok { columns := ["subject"],
             rows := (projectCols (addMissing ⟨["subject"], [[some "x"]]⟩ ["subject"])
               ["subject"]).rows }) :=
  projection_schema_nullfill_alias ⟨["subject"], [[some "x"]]⟩ "zzz" "subject" "s"
    (by decide) (by decide) (by decide) (by decide) (by decide)

/-- Counterexample to claim C6 as stated: the rename loop keys the
rename off the identifier as written (`Subject`) while the projected
columns are lower-cased (`subject`), so the requested alias `s` is
silently dropped and the output keeps column `subject` instead of the
claimed renamed frame. -/
theorem alias_mixed_case_counterexample :
    selectProject [Target.ident ["Subject"] (some "s")] ⟨["subject"], [[some "x"]]⟩ =
      .ok ⟨["subject"], [[some "x"]]⟩ ∧
    (⟨["subject"], [[some "x"]]⟩ : DataFrame) ≠ ⟨["s"], [[some "x"]]⟩ :=
  ⟨rfl, by decide⟩

/-- Claim C7: an insert column outside
{message_id, thread_id, to_email, subject, body} fails with the
unsupported-column error, and an insert whose rows lack `to_email`
fails with the missing-recipient error on its first row — in both cases
with zero send calls made. -/
theorem insert_validation_precedes_send (columns : List String)
    (values : List (List String)) (row : List String)
    (rest : List (List String)) (c : String) :
    (c ∈ columns → c ∉ supported_columns →
      insertEmails columns values = ([], some .unsupportedColumn)) ∧
    ((∀ x ∈ columns, x ∈ supported_columns) → "to_email" ∉ columns →
      insertEmails columns (row :: rest) = ([], some .missingRecipient)) := by
  constructor
  · intro hc hcu
    have hall : ¬ (columns.all (fun x => supported_columns.contains x) = true) := by
      simp only [List.all_eq_true, not_forall]
      exact ⟨c, hc, by simpa using hcu⟩
    rw [insertEmails, if_neg hall]
  · intro hsub hte
    have hall : columns.all (fun x => supported_columns.contains x) = true := by
      rw [List.all_eq_true]
      intro x hx
      simpa using hsub x hx
    have hb : buildPayload columns row = none := by
      rw [buildPayload, rowParam_eq_none columns row _ hte]
    rw [insertEmails, if_pos hall, insertRows, hb]

/-- Witness for C7's theorem: an unsupported column `nope`, and a
one-row insert supplying only `subject`. -/
theorem insert_validation_precedes_send_witness :
    insertEmails ["nope"] [] = ([], some .unsupportedColumn) ∧
    insertEmails ["subject"] [["s"]] = ([], some .missingRecipient) :=
  ⟨(insert_validation_precedes_send ["nope"] [] [] [] "nope").1
     (by decide) (by decide),
   (insert_validation_precedes_send ["subject"] [] ["s"] [] "x").2
     (by decide) (by decide)⟩

/-- Claim C8: when every row supplies `to_email`, one outbound message
is sent per value row with no error; and a row supplying both
`thread_id` and `message_id` yields a payload whose message carries
`In-Reply-To` and `References` equal to the message id and whose
`threadId` equals the thread id. -/
theorem insert_builds_threaded_message (columns : List String)
    (values : List (List String)) (row : List String) (te T M : String)
    (hsub : ∀ x ∈ columns, x ∈ supported_columns)
    (hte : "to_email" ∈ columns)
    (hlen : ∀ r ∈ values, columns.length ≤ r.length)
    (hrte : rowParam columns row "to_email" = some te)
    (hthr : rowParam columns row "thread_id" = some T)
    (hmid : rowParam columns row "message_id" = some M) :
    ((insertEmails columns values).2 = none ∧
     (insertEmails columns values).1.length = values.length) ∧
    ∃ p, buildPayload columns row = some p ∧
      p.raw.inReplyTo = some M ∧ p.raw.references = some M ∧
      p.threadId = some T ∧ p.raw.«to» = te := by
  constructor
  · have hall : columns.all (fun x => supported_columns.contains x) = true := by
      rw [List.all_eq_true]
      intro x hx
      simpa using hsub x hx
    have hsome : ∀ r ∈ values, (buildPayload columns r).isSome = true := by
      intro r hr
      have := rowParam_isSome columns r "to_email" hte (hlen r hr)
      rw [buildPayload]
      cases hx : rowParam columns r "to_email" with
      | none => rw [hx] at this; simp at this
      | some te' => rfl
    obtain ⟨h1, h2⟩ := insertRows_all_sent columns values [] hsome
    rw [insertEmails, if_pos hall]
    exact ⟨h1, by simpa using h2⟩
  · rw [buildPayload, hrte, hthr, hmid]
    exact ⟨_, rfl, by simp, by simp, rfl, rfl⟩

/-- Witness for C8's theorem: the spec's example row
`to_email="a@b.com", thread_id="T1", message_id="M1", body="hi"`. -/
theorem insert_builds_threaded_message_witness :
    ((insertEmails ["to_email", "thread_id", "message_id", "body"]
        [["a@b.com", "T1", "M1", "hi"]]).2 = none ∧
     (insertEmails ["to_email", "thread_id", "message_id", "body"]
        [["a@b.com", "T1", "M1", "hi"]]).1.length = 1) ∧
    ∃ p, buildPayload ["to_email", "thread_id", "message_id", "body"]
        ["a@b.com", "T1", "M1", "hi"] = some p ∧
      p.raw.inReplyTo = some "M1" ∧ p.raw.references = some "M1" ∧
      p.threadId = some "T1" ∧ p.raw.«to» = "a@b.com" :=
  insert_builds_threaded_message ["to_email", "thread_id", "message_id", "body"]
    [["a@b.com", "T1", "M1", "hi"]] ["a@b.com", "T1", "M1", "hi"]
    "a@b.com" "T1" "M1"
    (by decide) (by decide) (by decide) (by decide) (by decide) (by decide)

/-- Claim C9: each supported equality condition maps to its provider
parameter carrying the value verbatim (`query` to `q`, `label_ids`
comma-split to `labelIds` — rejoining the split fields reproduces the
original string byte for byte — and `include_spam_trash` passed through
to `includeSpamTrash`); an `or` combinator fails with the
unsupported-predicate error, as does a non-equality operator on a
recognized field; any other field fails with the unsupported-field
error. -/
theorem where_translation_exact (v op a1 a2 : String) (p : ListCallParams)
    (rest : List (String × String × String)) :
    translateConditions [("=", "query", v)] emptyListCallParams =
      .ok { emptyListCallParams with q := some v } ∧
    translateConditions [("=", "label_ids", v)] emptyListCallParams =
      .ok { emptyListCallParams with labelIds := some (splitComma v) } ∧
    translateConditions [("=", "include_spam_trash", v)] emptyListCallParams =
      .ok { emptyListCallParams with includeSpamTrash := some v } ∧
    joinComma (splitComma v) = v ∧
    translateConditions (("or", a1, a2) :: rest) p = .error .unsupportedPredicate ∧
    ((a1 = "query" ∨ a1 = "label_ids" ∨ a1 = "include_spam_trash") →
      op ≠ "or" → op ≠ "=" →
      applyCondition p (op, a1, a2) = .error .unsupportedPredicate) ∧
    (op ≠ "or" → a1 ≠ "query" → a1 ≠ "label_ids" → a1 ≠ "include_spam_trash" →
      applyCondition p (op, a1, a2) = .error .unsupportedField) := by
  refine ⟨rfl, rfl, rfl, joinComma_splitComma v, rfl, ?_, ?_⟩
  · intro hrec hop1 hop2
    rcases hrec with h | h | h <;> subst h <;> simp [applyCondition, hop1, hop2]
  · intro hop1 hf1 hf2 hf3
    simp [applyCondition, hop1, hf1, hf2, hf3]

/-- Witness for C9's theorem: `label_ids = "a,b"`, a `<` operator and an
unrecognized field `foo`. -/
theorem where_translation_exact_witness :
    translateConditions [("=", "query", "a,b")] emptyListCallParams =
      .ok { emptyListCallParams with q := some "a,b" } ∧
    translateConditions [("=", "label_ids", "a,b")] emptyListCallParams =
      .ok { emptyListCallParams with labelIds := some (splitComma "a,b") } ∧
    splitComma "a,b" = ["a", "b"] ∧
    joinComma (splitComma "a,b") = "a,b" ∧
    translateConditions [("or", "query", "x")] emptyListCallParams =
      .error .unsupportedPredicate ∧
    applyCondition emptyListCallParams ("<", "label_ids", "x") =
      .error .unsupportedPredicate ∧
    applyCondition emptyListCallParams ("<", "foo", "x") =
      .error .unsupportedField := by
  have h := where_translation_exact "a,b" "<" "label_ids" "x" emptyListCallParams []
  have h2 := where_translation_exact "a,b" "<" "foo" "x" emptyListCallParams []
  exact ⟨h.1, h.2.1, by decide, h.2.2.2.1,
    (where_translation_exact "a,b" "<" "query" "x" emptyListCallParams []).2.2.2.2.1,
    h.2.2.2.2.2.1 (Or.inr (Or.inl rfl)) (by decide) (by decide),
    h2.2.2.2.2.2.2 (by decide) (by decide) (by decide) (by decide)⟩

/-- Claim C10: an absent or empty parts list makes `_parse_parts` return
`None` rather than the empty string; a message whose payload has no
parts list gets a null `body` field in its row; and a nested part whose
child list is empty makes the enclosing concatenation raise (`body +=
None` is a `TypeError`) instead of contributing nothing. -/
theorem empty_parts_none_not_empty_string (dec : String → String)
    (atts : List Att) (data : List DataRow) (s : String)
    (f : Option String) (b : Option MimePartBody) (rest : List MimePart)
    (acc : String) :
    parseParts dec none atts = .ok (none, atts) ∧
    parseParts dec (some []) atts = .ok (none, atts) ∧
    (parse_message dec data (some (simpleMsg s)) none =
       .ok (data ++ [.parsed (simpleRow s)]) ∧ (simpleRow s).body = none) ∧
    parsePartsGo dec (MimePart.mk "multipart/alternative" f b (some []) :: rest)
      acc atts = .error .typeError := by
  refine ⟨rfl, rfl, ⟨rfl, rfl⟩, ?_⟩
  rw [parsePartsGo.eq_def]
  simp

end Gmail
